import Mathlib

/-!
Verification of the gate controller's decision engine, shallowly embedded
from the Python source: token-id normalization and registry CRUD
(`gate_controller/core/token_manager.py`, `gate_controller/config/config.py`),
the controller state machine — observation handling, open/close, auto-close
watchdog (`gate_controller/core/controller.py`) — and the activity log's
suppress-mode semantics (`gate_controller/core/activity_log.py`).

Timestamps are modelled as integers (seconds); `datetime` subtraction
`.total_seconds()` compared against integer timeouts becomes integer
subtraction and comparison.  The remote actuator (`C4Client`) is modelled
by passing each call's boolean outcome as an explicit parameter.
-/

namespace GateCtl

/-- Python `str.lower()` on the identifier strings used here: lowercase each
character (basic-latin letters, which is all `Char.toLower` affects). -/
def pyLower (s : String) : String :=
  String.mk (s.data.map Char.toLower)

/-- Embeds `token_manager.normalize_uuid`: `uuid.lower().replace('-', '')`,
i.e. lowercase and remove every dash character. -/
def normalize_uuid (uuid : String) : String :=
  String.mk ((pyLower uuid).data.filter (fun c => c != '-'))

/-- A registered token record: the Python dict with keys `uuid`, `name` and
optionally `active` (the key may be absent, `get('active', True)` defaults
it to true, hence `Option Bool`). -/
structure Token where
  uuid : String
  name : String
  active : Option Bool
  deriving DecidableEq, Repr

/-- Embeds `token_info.get('active', True)`. -/
def Token.isActive (t : Token) : Bool :=
  t.active.getD true

/-- Token-manager state: the list of registered tokens
(`config.registered_tokens`, insertion order) together with a count of
`config.save()` calls, so that "persists" / "does not persist" is visible. -/
structure Registry where
  tokens : List Token
  saves : Nat
  deriving DecidableEq, Repr

/-- Embeds `TokenManager.get_token_by_uuid`: normalize the query and return
the first registered token whose normalized uuid matches. -/
def get_token_by_uuid (tokens : List Token) (uuid : String) : Option Token :=
  tokens.find? (fun t => normalize_uuid t.uuid == normalize_uuid uuid)

/-- Embeds `TokenManager.is_token_registered`. -/
def is_token_registered (tokens : List Token) (uuid : String) : Bool :=
  (get_token_by_uuid tokens uuid).isSome

/-- Embeds `Config.add_token`: fail if a token with exactly this uuid string
exists, otherwise append `{'uuid': uuid, 'name': name, 'active': active}`. -/
def add_token (tokens : List Token) (uuid name : String) (active : Bool) :
    Bool × List Token :=
  if tokens.any (fun t => t.uuid == uuid) then (false, tokens)
  else (true, tokens ++ [⟨uuid, name, some active⟩])

/-- Embeds `TokenManager.register_token`: lowercase the uuid, fail if a token
with the same normalized uuid is registered, otherwise `Config.add_token`
and, on success, `Config.save()`. -/
def register_token (r : Registry) (uuid name : String) (active : Bool) :
    Bool × Registry :=
  let u := pyLower uuid
  if is_token_registered r.tokens u then (false, r)
  else
    let res := add_token r.tokens u name active
    if res.1 then (true, ⟨res.2, r.saves + 1⟩) else (false, ⟨res.2, r.saves⟩)

/-- Embeds `Config.update_token`: find the first token whose stored uuid
string equals the query exactly; merge the provided fields in place. -/
def config_update_token :
    List Token → String → Option String → Option Bool → Bool × List Token
  | [], _, _, _ => (false, [])
  | t :: ts, uuid, name, active =>
    if t.uuid == uuid then
      (true, ⟨t.uuid, name.getD t.name,
              match active with | some a => some a | none => t.active⟩ :: ts)
    else
      let res := config_update_token ts uuid name active
      (res.1, t :: res.2)

/-- Embeds `Config.remove_token`: keep tokens whose uuid differs from the
query (exact string comparison); fail when nothing was removed. -/
def config_remove_token (tokens : List Token) (uuid : String) :
    Bool × List Token :=
  let ts := tokens.filter (fun t => t.uuid != uuid)
  if ts.length == tokens.length then (false, tokens) else (true, ts)

/-- Embeds `TokenManager.update_token`: lowercase the uuid, delegate to
`Config.update_token`, `save()` on success. -/
def tm_update_token (r : Registry) (uuid : String)
    (name : Option String) (active : Option Bool) : Bool × Registry :=
  let res := config_update_token r.tokens (pyLower uuid) name active
  if res.1 then (true, ⟨res.2, r.saves + 1⟩) else (false, ⟨res.2, r.saves⟩)

/-- Embeds `TokenManager.unregister_token`: lowercase the uuid, delegate to
`Config.remove_token`, `save()` on success. -/
def unregister_token (r : Registry) (uuid : String) : Bool × Registry :=
  let res := config_remove_token r.tokens (pyLower uuid)
  if res.1 then (true, ⟨res.2, r.saves + 1⟩) else (false, ⟨res.2, r.saves⟩)

/-- Gate states, embedding the `GateState` Python enum. -/
inductive GateState where
  | closed
  | opening
  | isOpen
  | closing
  | unknown
  deriving DecidableEq, Repr

/-- Controller state: `gate_state`, `last_open_time`, `session_start_time`
(`GateController.__init__` lines 64-67). -/
structure CtrlState where
  gateState : GateState
  lastOpenTime : Option Int
  sessionStartTime : Option Int
  deriving DecidableEq, Repr

/-- Initial controller state (`GateState.UNKNOWN`, both timestamps `None`). -/
def initState : CtrlState :=
  ⟨GateState.unknown, none, none⟩

/-- Embeds `GateController.open_gate`: state goes to `OPENING`, the actuator
is called (its boolean outcome is the `success` parameter); on success state
becomes `OPEN` and `last_open_time := now`; on failure state becomes
`UNKNOWN` and `last_open_time` is untouched.  `session_start_time` is never
touched.  The returned state is the state after the whole call. -/
def open_gate (s : CtrlState) (now : Int) (success : Bool) : CtrlState :=
  if success then ⟨GateState.isOpen, some now, s.sessionStartTime⟩
  else ⟨GateState.unknown, s.lastOpenTime, s.sessionStartTime⟩

/-- Embeds `GateController.close_gate`: state goes to `CLOSING`, the actuator
is called; on success state becomes `CLOSED` and `last_open_time := None`
while `session_start_time` is deliberately NOT cleared (source comment at
controller.py lines 315-317); on failure state becomes `UNKNOWN`. -/
def close_gate (s : CtrlState) (success : Bool) : CtrlState :=
  if success then ⟨GateState.closed, none, s.sessionStartTime⟩
  else ⟨GateState.unknown, s.lastOpenTime, s.sessionStartTime⟩

/-- The tail of `GateController._handle_token_detected` after the
active-token check (controller.py lines 240-257): stop if the gate is
`OPEN` or `OPENING`; stop if a session is active and younger than
`session_timeout`; otherwise set `session_start_time := now` BEFORE calling
`open_gate`.  The boolean records whether `open_gate` was invoked. -/
def handle_active_path (sessionTimeout : Int) (s : CtrlState) (now : Int)
    (openSuccess : Bool) : CtrlState × Bool :=
  if s.gateState = GateState.isOpen ∨ s.gateState = GateState.opening then
    (s, false)
  else
    match s.sessionStartTime with
    | some start =>
      if now - start < sessionTimeout then (s, false)
      else
        (open_gate ⟨s.gateState, s.lastOpenTime, some now⟩ now openSuccess, true)
    | none =>
      (open_gate ⟨s.gateState, s.lastOpenTime, some now⟩ now openSuccess, true)

/-- Embeds `GateController._handle_token_detected` (controller.py lines
207-257): look the uuid up in the registry; a token found with
`get('active', True) == False` stops the handler; a token found active, or
NO registry entry at all, falls through to the gate/session logic.  The
unconditional activity-log recording touches no controller state and is
modelled separately on `ActivityLog`.  The boolean records whether
`open_gate` was invoked. -/
def handle_token_detected (tokens : List Token) (sessionTimeout : Int)
    (s : CtrlState) (uuid : String) (now : Int) (openSuccess : Bool) :
    CtrlState × Bool :=
  match get_token_by_uuid tokens uuid with
  | some t =>
    if t.isActive then handle_active_path sessionTimeout s now openSuccess
    else (s, false)
  | none => handle_active_path sessionTimeout s now openSuccess

/-- Embeds one iteration of `GateController._auto_close_loop` (controller.py
lines 180-190): when the gate is `OPEN`, `last_open_time` is set and
`now - last_open_time >= auto_close_timeout`, call
`close_gate("Auto-close timeout")`; otherwise do nothing.  The second
component is the reason string passed to `close_gate`, when it was called. -/
def auto_close_step (autoCloseTimeout : Int) (s : CtrlState) (now : Int)
    (closeSuccess : Bool) : CtrlState × Option String :=
  match s.gateState, s.lastOpenTime with
  | GateState.isOpen, some t =>
    if autoCloseTimeout ≤ now - t then
      (close_gate s closeSuccess, some "Auto-close timeout")
    else (s, none)
  | _, _ => (s, none)

/-- One transition of the controller: a manual or token-triggered open, a
manual close, an observation being handled, or an auto-close watchdog tick,
with arbitrary registry, timeouts, times and actuator outcomes. -/
inductive CtrlStep : CtrlState → CtrlState → Prop where
  | openStep (s : CtrlState) (now : Int) (b : Bool) :
      CtrlStep s (open_gate s now b)
  | closeStep (s : CtrlState) (b : Bool) :
      CtrlStep s (close_gate s b)
  | handleStep (tokens : List Token) (st : Int) (s : CtrlState)
      (uuid : String) (now : Int) (b : Bool) :
      CtrlStep s (handle_token_detected tokens st s uuid now b).1
  | autoStep (act : Int) (s : CtrlState) (now : Int) (b : Bool) :
      CtrlStep s (auto_close_step act s now b).1

/-- The spec's state invariant: `Open` implies `last_open_time` present,
`Closed` implies `last_open_time` absent. -/
def Inv (s : CtrlState) : Prop :=
  (s.gateState = GateState.isOpen → s.lastOpenTime.isSome) ∧
  (s.gateState = GateState.closed → s.lastOpenTime = none)

/-- Folds `handle_token_detected` over a list of (time, actuator-outcome)
observations of one token, counting how many of them invoked `open_gate`. -/
def obsFold (tokens : List Token) (sessionTimeout : Int) :
    CtrlState → String → List (Int × Bool) → CtrlState × Nat
  | s, _, [] => (s, 0)
  | s, uuid, o :: rest =>
    let r := handle_token_detected tokens sessionTimeout s uuid o.1 o.2
    let k := obsFold tokens sessionTimeout r.1 uuid rest
    (k.1, (if r.2 then 1 else 0) + k.2)

/-- Embeds `ActivityLog._get_signal_quality`. -/
def get_signal_quality (rssi : Int) : String :=
  if -60 ≤ rssi then "Excellent"
  else if -70 ≤ rssi then "Good"
  else if -80 ≤ rssi then "Fair"
  else if -90 ≤ rssi then "Weak"
  else "Very Weak"

/-- The `details` dict of an activity entry.  Every field is optional since
each event type fills in a different subset of keys; Python `.get` on an
absent key yields `None`. -/
structure Details where
  token_uuid : Option String
  token_name : Option String
  rssi : Option Int
  signal_quality : Option String
  distance_meters : Option Rat
  deriving DecidableEq, Repr

/-- An activity-log entry: `timestamp`, `type`, `message`, `details`, and the
`update_count` key which is absent until the first in-place update. -/
structure Entry where
  timestamp : Int
  type : String
  message : String
  details : Details
  update_count : Option Nat
  deriving DecidableEq, Repr

/-- Activity-log state: the in-memory entry list, `max_entries`, and
`suppress_mode` (file persistence carries no extra observable state). -/
structure ALog where
  entries : List Entry
  maxEntries : Nat
  suppressMode : Bool
  deriving DecidableEq, Repr

/-- Embeds `ActivityLog.add_entry`: append a fresh entry (no `update_count`
key), then trim to the most recent `max_entries` (`entries[-max_entries:]`). -/
def add_entry (log : ALog) (type msg : String) (d : Details) (now : Int) :
    ALog :=
  let es := log.entries ++ [⟨now, type, msg, d, none⟩]
  let es' := if log.maxEntries < es.length
             then es.drop (es.length - log.maxEntries) else es
  ⟨es', log.maxEntries, log.suppressMode⟩

/-- The `details` dict built by `ActivityLog.log_token_detected`:
`token_uuid` and `token_name` always; `rssi` and `signal_quality` when an
rssi was supplied; `distance_meters` when a positive distance was supplied. -/
def mkDetails (uuid name : String) (rssi : Option Int) (dist : Option Rat) :
    Details :=
  ⟨some uuid, some name, rssi, rssi.map get_signal_quality,
   match dist with
   | some d => if 0 < d then some d else none
   | none => none⟩

/-- The message built by `ActivityLog.log_token_detected`: the parts list
joined with " | ". -/
def mkMessage (name : String) (rssi : Option Int) (dist : Option Rat) :
    String :=
  let parts := ["Token detected: " ++ name]
  let parts := match rssi with
    | some r =>
      parts ++ ["RSSI: " ++ toString r ++ " dBm (" ++ get_signal_quality r ++ ")"]
    | none => parts
  let parts := match dist with
    | some d => if 0 < d then parts ++ ["Distance: ~" ++ toString d ++ "m"] else parts
    | none => parts
  String.intercalate " | " parts

/-- The predicate `ActivityLog._update_token_detection` matches on: a
`token_detected` entry whose `details["token_uuid"]` equals the uuid. -/
def isDet (uuid : String) (e : Entry) : Bool :=
  e.type == "token_detected" && e.details.token_uuid == some uuid

/-- Embeds `ActivityLog._update_token_detection`: walk the entries from the
most recent backwards; on the first (i.e. last-in-list) match refresh its
timestamp, message and details in place and bump
`update_count = entry.get("update_count", 0) + 1`; `none` when no entry
matches. -/
def updateLast : List Entry → String → Int → String → Details →
    Option (List Entry)
  | [], _, _, _, _ => none
  | e :: rest, uuid, now, msg, d =>
    match updateLast rest uuid now msg d with
    | some rest' => some (e :: rest')
    | none =>
      if isDet uuid e then
        some (⟨now, e.type, msg, d, some (e.update_count.getD 0 + 1)⟩ :: rest)
      else none

/-- Embeds `ActivityLog.log_token_detected`: build message and details; in
suppress mode first try to update the existing entry for this token in
place; otherwise (extended mode, or no existing entry) append a new entry. -/
def log_token_detected (log : ALog) (uuid name : String) (rssi : Option Int)
    (dist : Option Rat) (now : Int) : ALog :=
  let d := mkDetails uuid name rssi dist
  let msg := mkMessage name rssi dist
  if log.suppressMode then
    match updateLast log.entries uuid now msg d with
    | some es => ⟨es, log.maxEntries, log.suppressMode⟩
    | none => add_entry log "token_detected" msg d now
  else add_entry log "token_detected" msg d now

/-- One observation as fed to the activity log: detection time, optional
rssi, optional estimated distance. -/
structure Obs where
  time : Int
  rssi : Option Int
  dist : Option Rat
  deriving DecidableEq, Repr

/-- Folds `log_token_detected` for one token over a list of observations. -/
def detectFold (uuid name : String) : ALog → List Obs → ALog
  | log, [] => log
  | log, o :: rest =>
    detectFold uuid name (log_token_detected log uuid name o.rssi o.dist o.time) rest

/-- Number of `token_detected` entries for a given uuid in the log. -/
def countDet (entries : List Entry) (uuid : String) : Nat :=
  entries.countP (fun e => isDet uuid e)

/-- The fresh or refreshed `token_detected` entry an observation produces. -/
def mkDetEntry (uuid name : String) (o : Obs) (c : Option Nat) : Entry :=
  ⟨o.time, "token_detected", mkMessage name o.rssi o.dist,
   mkDetails uuid name o.rssi o.dist, c⟩

/-! Helper lemmas about lowercasing and normalization. -/

theorem toNat_ofNat_valid (m : Nat) (h : m < 55296) :
    (Char.ofNat m).toNat = m := by
  have hv : m.isValidChar := Or.inl h
  rw [Char.ofNat, dif_pos hv]
  simp [Char.ofNatAux, Char.toNat, UInt32.toNat]

theorem toLower_idem (c : Char) : c.toLower.toLower = c.toLower := by
  simp only [Char.toLower]
  split
  · next h =>
    have h2 : (Char.ofNat (c.toNat + 32)).toNat = c.toNat + 32 :=
      toNat_ofNat_valid _ (by omega)
    rw [if_neg (by omega)]
  · rfl

theorem map_toLower_idem (l : List Char) :
    (l.map Char.toLower).map Char.toLower = l.map Char.toLower := by
  induction l with
  | nil => rfl
  | cons c l ih => simp [ih, toLower_idem]

theorem pyLower_idem (s : String) : pyLower (pyLower s) = pyLower s := by
  simp only [pyLower]
  exact congrArg String.mk (map_toLower_idem s.data)

theorem normalize_uuid_pyLower (s : String) :
    normalize_uuid (pyLower s) = normalize_uuid s := by
  simp only [normalize_uuid, pyLower_idem]

/-! Helper lemmas about registry lookup. -/

theorem get_token_by_uuid_eq_none {tokens : List Token} {q : String} :
    get_token_by_uuid tokens q = none ↔
      ∀ t ∈ tokens, normalize_uuid t.uuid ≠ normalize_uuid q := by
  simp [get_token_by_uuid, List.find?_eq_none]

theorem get_token_by_uuid_isSome {tokens : List Token} {q : String} :
    (get_token_by_uuid tokens q).isSome = true ↔
      ∃ t ∈ tokens, normalize_uuid t.uuid = normalize_uuid q := by
  simp [get_token_by_uuid, List.find?_isSome]

theorem get_token_by_uuid_congr {tokens : List Token} {q₁ q₂ : String}
    (h : normalize_uuid q₁ = normalize_uuid q₂) :
    get_token_by_uuid tokens q₁ = get_token_by_uuid tokens q₂ := by
  simp only [get_token_by_uuid, h]

theorem get_token_by_uuid_of_mem_unique {tokens : List Token} {T : Token}
    {q : String}
    (hp : tokens.Pairwise (fun a b => normalize_uuid a.uuid ≠ normalize_uuid b.uuid))
    (hm : T ∈ tokens) (he : normalize_uuid T.uuid = normalize_uuid q) :
    get_token_by_uuid tokens q = some T := by
  induction tokens with
  | nil => cases hm
  | cons t ts ih =>
    rcases List.pairwise_cons.mp hp with ⟨hhead, htail⟩
    rcases List.mem_cons.mp hm with rfl | hmem
    · simp [get_token_by_uuid, he]
    · have hne : normalize_uuid t.uuid ≠ normalize_uuid q := by
        intro hq
        exact hhead T hmem (hq.trans he.symm)
      simpa [get_token_by_uuid, hne] using ih htail hmem

/-! Helper lemmas about exact-match removal and update. -/

theorem config_remove_token_fst {tokens : List Token} {u : String} :
    (config_remove_token tokens u).1 = true ↔ ∃ t ∈ tokens, t.uuid = u := by
  simp only [config_remove_token]
  by_cases h : (List.filter (fun x => x.uuid != u) tokens).length = tokens.length
  · have hall := List.filter_length_eq_length.mp h
    have hbeq : ((List.filter (fun x => x.uuid != u) tokens).length
        == tokens.length) = true := by simpa using h
    rw [hbeq]
    simp only [if_true]
    constructor
    · intro hf
      cases hf
    · rintro ⟨t, ht, he⟩
      have := hall t ht
      simp [he] at this
  · have hbeq : ((List.filter (fun x => x.uuid != u) tokens).length
        == tokens.length) = false := by simpa using h
    rw [hbeq]
    simp only [Bool.false_eq_true, if_false]
    constructor
    · intro _
      have hx : ¬ ∀ a ∈ tokens, (a.uuid != u) = true := fun hc =>
        h (List.filter_length_eq_length.mpr hc)
      push_neg at hx
      rcases hx with ⟨t, ht, hp⟩
      exact ⟨t, ht, by simpa using hp⟩
    · intro _
      trivial

theorem config_remove_token_of_none {tokens : List Token} {u : String}
    (h : ∀ t ∈ tokens, t.uuid ≠ u) :
    config_remove_token tokens u = (false, tokens) := by
  have h1 : (config_remove_token tokens u).1 = false := by
    rcases hb : (config_remove_token tokens u).1 with _ | _
    · rfl
    · rcases config_remove_token_fst.mp hb with ⟨t, ht, he⟩
      exact absurd he (h t ht)
  have hf : List.filter (fun x => x.uuid != u) tokens = tokens :=
    List.filter_eq_self.mpr (fun t ht => by simpa using h t ht)
  simp only [config_remove_token, hf, beq_self_eq_true, if_true]

theorem config_update_token_fst {tokens : List Token} {u : String}
    {n : Option String} {a : Option Bool} :
    (config_update_token tokens u n a).1 = true ↔ ∃ t ∈ tokens, t.uuid = u := by
  induction tokens with
  | nil => simp [config_update_token]
  | cons t ts ih =>
    by_cases h : t.uuid = u
    · have hb : (t.uuid == u) = true := by simpa using h
      simp only [config_update_token, hb, if_true]
      simp only [List.mem_cons, true_iff]
      exact ⟨t, Or.inl rfl, h⟩
    · have hb : (t.uuid == u) = false := by simpa using h
      simp only [config_update_token, hb, if_false, Bool.false_eq_true]
      rw [ih]
      constructor
      · rintro ⟨x, hx1, hx2⟩
        exact ⟨x, List.mem_cons_of_mem t hx1, hx2⟩
      · rintro ⟨x, hx1, hx2⟩
        rcases List.mem_cons.mp hx1 with rfl | hx1
        · exact absurd hx2 h
        · exact ⟨x, hx1, hx2⟩

theorem config_update_token_of_fail {tokens : List Token} {u : String}
    {n : Option String} {a : Option Bool}
    (h : (config_update_token tokens u n a).1 = false) :
    (config_update_token tokens u n a).2 = tokens := by
  induction tokens with
  | nil => rfl
  | cons t ts ih =>
    by_cases hb : (t.uuid == u) = true
    · simp [config_update_token, hb] at h
    · simp only [Bool.not_eq_true] at hb
      simp only [config_update_token, hb, Bool.false_eq_true, if_false] at h ⊢
      rw [ih h]

/-- C7: the claim's theorem, amended.  `get` resolves a query by
normalized-id match where normalization is lowercasing plus removal of
dashes only: it is absent exactly when no registered token's normalized id
equals the normalized query, and a dashed id such as `AA-BB-CC` resolves
identically to its dash-stripped lowercase form `aabbcc`.  (Colon-separated
ids are NOT equated with stripped ones; see the counterexample.) -/
theorem get_normalized_lookup (tokens : List Token) (q : String) :
    (get_token_by_uuid tokens q = none ↔
      ∀ t ∈ tokens, normalize_uuid t.uuid ≠ normalize_uuid q)
    ∧ get_token_by_uuid tokens "AA-BB-CC" = get_token_by_uuid tokens "aabbcc" := by
  refine ⟨get_token_by_uuid_eq_none, ?_⟩
  exact get_token_by_uuid_congr (by decide)

/-- C7, counterexample to the claim as stated: with the token registered
under id `aabbcc`, the query `AA:BB:CC` does NOT resolve to it (colons are
not separator-stripped by `normalize_uuid`), while `aabbcc` does. -/
theorem get_colon_separator_not_normalized :
    get_token_by_uuid [⟨"aabbcc", "Phone", some true⟩] "AA:BB:CC" = none ∧
    get_token_by_uuid [⟨"aabbcc", "Phone", some true⟩] "aabbcc"
      = some ⟨"aabbcc", "Phone", some true⟩ := by
  decide

/-- C8: `register_token` fails, changing nothing and persisting nothing,
exactly when some registered token's id normalizes identically to the new
id; otherwise it appends the lowercased token and persists once. -/
theorem register_token_spec (r : Registry) (uuid name : String) :
    ((∃ t ∈ r.tokens, normalize_uuid t.uuid = normalize_uuid uuid) →
       register_token r uuid name true = (false, r))
    ∧ ((∀ t ∈ r.tokens, normalize_uuid t.uuid ≠ normalize_uuid uuid) →
       register_token r uuid name true =
         (true, ⟨r.tokens ++ [⟨pyLower uuid, name, some true⟩], r.saves + 1⟩)) := by
  have hreg : is_token_registered r.tokens (pyLower uuid)
      = (get_token_by_uuid r.tokens uuid).isSome := by
    simp only [is_token_registered,
      get_token_by_uuid_congr (normalize_uuid_pyLower uuid)]
  constructor
  · intro hex
    have h1 : is_token_registered r.tokens (pyLower uuid) = true := by
      rw [hreg]
      exact get_token_by_uuid_isSome.mpr hex
    simp [register_token, h1]
  · intro hall
    have h1 : is_token_registered r.tokens (pyLower uuid) = false := by
      rw [hreg]
      rcases hb : (get_token_by_uuid r.tokens uuid).isSome with _ | _
      · rfl
      · exact absurd (get_token_by_uuid_isSome.mp hb) (by
          rintro ⟨t, ht, he⟩
          exact hall t ht he)
    have h2 : r.tokens.any (fun t => t.uuid == pyLower uuid) = false := by
      rw [List.any_eq_false]
      intro t ht he
      have hee : t.uuid = pyLower uuid := by simpa using he
      exact hall t ht (by rw [hee, normalize_uuid_pyLower])
    simp [register_token, h1, add_token, h2]

/-- C10: `unregister` and `update` succeed exactly when the lowercased query
is character-for-character equal to a stored token id — no dash stripping;
on failure the registry is unchanged.  In particular, for a token stored
under `aa-bb-cc`, unregister/update with the dash-stripped variant `AABBCC`
fail and change nothing, while `get` with that very variant still finds the
token. -/
theorem unregister_update_exact_match (r : Registry) (uuid : String) :
    ((unregister_token r uuid).1 = true ↔ ∃ t ∈ r.tokens, t.uuid = pyLower uuid)
    ∧ (∀ name active, ((tm_update_token r uuid name active).1 = true ↔
         ∃ t ∈ r.tokens, t.uuid = pyLower uuid))
    ∧ ((∀ t ∈ r.tokens, t.uuid ≠ pyLower uuid) →
         unregister_token r uuid = (false, r) ∧
         ∀ name active, tm_update_token r uuid name active = (false, r))
    ∧ (unregister_token ⟨[⟨"aa-bb-cc", "Phone", some true⟩], 0⟩ "AABBCC"
         = (false, ⟨[⟨"aa-bb-cc", "Phone", some true⟩], 0⟩)
       ∧ tm_update_token ⟨[⟨"aa-bb-cc", "Phone", some true⟩], 0⟩ "AABBCC"
           none (some false)
         = (false, ⟨[⟨"aa-bb-cc", "Phone", some true⟩], 0⟩)
       ∧ get_token_by_uuid [⟨"aa-bb-cc", "Phone", some true⟩] "AABBCC"
         = some ⟨"aa-bb-cc", "Phone", some true⟩) := by
  refine ⟨?_, ?_, ?_, by decide⟩
  · rcases hb : (config_remove_token r.tokens (pyLower uuid)).1 with _ | _
    · simp only [unregister_token, hb, if_false]
      simpa using (@config_remove_token_fst r.tokens (pyLower uuid)).not.mp (by simp [hb])
    · simp only [unregister_token, hb, if_true]
      simpa using config_remove_token_fst.mp hb
  · intro name active
    rcases hb : (config_update_token r.tokens (pyLower uuid) name active).1 with _ | _
    · simp only [tm_update_token, hb, if_false]
      simpa using (@config_update_token_fst r.tokens (pyLower uuid)
        name active).not.mp (by simp [hb])
    · simp only [tm_update_token, hb, if_true]
      simpa using config_update_token_fst.mp hb
  · intro hall
    have hrem : config_remove_token r.tokens (pyLower uuid) = (false, r.tokens) :=
      config_remove_token_of_none hall
    refine ⟨by simp [unregister_token, hrem], ?_⟩
    intro name active
    have hupd : (config_update_token r.tokens (pyLower uuid) name active).1 = false := by
      rcases hb : (config_update_token r.tokens (pyLower uuid) name active).1 with _ | _
      · rfl
      · rcases config_update_token_fst.mp hb with ⟨t, ht, he⟩
        exact absurd he (hall t ht)
    have h2 := config_update_token_of_fail hupd
    simp [tm_update_token, hupd, h2]

/-! Helper lemmas about the controller. -/

theorem inv_open_gate (s : CtrlState) (now : Int) (b : Bool) :
    Inv (open_gate s now b) := by
  unfold Inv open_gate
  cases b <;> simp

theorem inv_close_gate (s : CtrlState) (b : Bool) : Inv (close_gate s b) := by
  unfold Inv close_gate
  cases b <;> simp

theorem handle_active_path_cases (st : Int) (s : CtrlState) (now : Int)
    (b : Bool) :
    handle_active_path st s now b = (s, false) ∨
    handle_active_path st s now b
      = (open_gate ⟨s.gateState, s.lastOpenTime, some now⟩ now b, true) := by
  unfold handle_active_path
  split
  · exact Or.inl rfl
  · cases hs : s.sessionStartTime with
    | none => exact Or.inr rfl
    | some start =>
      by_cases hlt : now - start < st
      · exact Or.inl (by simp [hlt])
      · exact Or.inr (by simp [hlt])

theorem handle_token_detected_cases (tokens : List Token) (st : Int)
    (s : CtrlState) (uuid : String) (now : Int) (b : Bool) :
    handle_token_detected tokens st s uuid now b = (s, false) ∨
    handle_token_detected tokens st s uuid now b
      = (open_gate ⟨s.gateState, s.lastOpenTime, some now⟩ now b, true) := by
  unfold handle_token_detected
  cases get_token_by_uuid tokens uuid with
  | none => exact handle_active_path_cases st s now b
  | some t =>
    by_cases ha : t.isActive = true
    · simp only [ha, if_true]
      exact handle_active_path_cases st s now b
    · have hb : t.isActive = false := by simpa using ha
      simp [hb]

theorem auto_close_step_cases (act : Int) (s : CtrlState) (now : Int)
    (b : Bool) :
    (auto_close_step act s now b).1 = s ∨
    (auto_close_step act s now b).1 = close_gate s b := by
  unfold auto_close_step
  rcases s with ⟨g, lo, ss⟩
  cases g <;> cases lo <;> simp
  split <;> simp

theorem handle_session_fresh (tokens : List Token) (st : Int) (s : CtrlState)
    (uuid : String) (now : Int) (b : Bool) (t0 : Int)
    (hses : s.sessionStartTime = some t0) (hfresh : now - t0 < st) :
    handle_token_detected tokens st s uuid now b = (s, false) := by
  have hap : handle_active_path st s now b = (s, false) := by
    unfold handle_active_path
    split
    · rfl
    · rw [hses]
      simp [hfresh]
  unfold handle_token_detected
  cases get_token_by_uuid tokens uuid with
  | none => exact hap
  | some t =>
    by_cases ha : t.isActive = true
    · simp only [ha, if_true]
      exact hap
    · have hb : t.isActive = false := by simpa using ha
      simp [hb]

theorem handle_opened_session (tokens : List Token) (st : Int) (s : CtrlState)
    (uuid : String) (now : Int) (b : Bool)
    (h : (handle_token_detected tokens st s uuid now b).2 = true) :
    (handle_token_detected tokens st s uuid now b).1.sessionStartTime
      = some now := by
  rcases handle_token_detected_cases tokens st s uuid now b with hc | hc
  · rw [hc] at h
    cases h
  · rw [hc]
    unfold open_gate
    cases b <;> simp

theorem obsFold_no_open (tokens : List Token) (st : Int) (uuid : String)
    (t0 : Int) :
    ∀ (obs : List (Int × Bool)) (s : CtrlState),
      s.sessionStartTime = some t0 → (∀ p ∈ obs, p.1 - t0 < st) →
      obsFold tokens st s uuid obs = (s, 0) := by
  intro obs
  induction obs with
  | nil =>
    intro s _ _
    rfl
  | cons o rest ih =>
    intro s hses hobs
    have h1 : handle_token_detected tokens st s uuid o.1 o.2 = (s, false) :=
      handle_session_fresh tokens st s uuid o.1 o.2 t0 hses
        (hobs o (List.mem_cons_self o rest))
    have h2 := ih s hses (fun p hp => hobs p (List.mem_cons_of_mem o hp))
    simp [obsFold, h1, h2]

/-- C1, amended: an observation whose tokenId has no entry in the registry is
NOT stopped by the registry check — `handleObservation` proceeds directly to
the gate-state/session logic, exactly as for an enabled token, and so may
call `ActuatorGateway.open`. -/
theorem handle_unregistered_falls_through (tokens : List Token) (st : Int)
    (s : CtrlState) (uuid : String) (now : Int) (b : Bool)
    (h : get_token_by_uuid tokens uuid = none) :
    handle_token_detected tokens st s uuid now b
      = handle_active_path st s now b := by
  unfold handle_token_detected
  rw [h]

theorem handle_unregistered_falls_through_witness :
    get_token_by_uuid ([] : List Token) "bb" = none ∧
    handle_token_detected [] 60 initState "bb" 0 true
      = handle_active_path 60 initState 0 true :=
  ⟨by decide, handle_unregistered_falls_through [] 60 initState "bb" 0 true (by decide)⟩

/-- C1, counterexample to the claim as stated: the token `aa` has no entry in
the empty registry, yet `handleObservation` from a closed gate with no
session calls `open` (the gate opens, the session starts): the handler does
not stop and the state does not stay unchanged. -/
theorem handle_unregistered_opens_counterexample :
    get_token_by_uuid ([] : List Token) "aa" = none ∧
    (handle_token_detected [] 60 ⟨GateState.closed, none, none⟩ "aa" 0 true).2
      = true ∧
    (handle_token_detected [] 60 ⟨GateState.closed, none, none⟩ "aa" 0 true).1
      = ⟨GateState.isOpen, some 0, some 0⟩ := by
  decide

/-- C3: the state invariant — `Open` implies `last_open_time` present,
`Closed` implies `last_open_time` absent — holds in the initial state and is
preserved by every controller transition (open, close, observation handling,
auto-close). -/
theorem ctrl_invariant :
    Inv initState ∧ ∀ s s', Inv s → CtrlStep s s' → Inv s' := by
  constructor
  · constructor
    · intro h
      simp [initState] at h
    · intro h
      simp [initState] at h
  · rintro s s' hs hstep
    cases hstep with
    | openStep s now b => exact inv_open_gate s now b
    | closeStep s b => exact inv_close_gate s b
    | handleStep tokens st s uuid now b =>
      rcases handle_token_detected_cases tokens st s uuid now b with hc | hc
      · rw [hc]
        exact hs
      · rw [hc]
        exact inv_open_gate _ now b
    | autoStep act s now b =>
      rcases auto_close_step_cases act s now b with hc | hc
      · rw [hc]
        exact hs
      · rw [hc]
        exact inv_close_gate s b

theorem ctrl_invariant_witness :
    Inv initState ∧ Inv (open_gate initState 3 true) :=
  ⟨ctrl_invariant.1,
   ctrl_invariant.2 initState (open_gate initState 3 true) ctrl_invariant.1
     (CtrlStep.openStep initState 3 true)⟩

/-- C4, amended: an auto-close watchdog step calls `close_gate` — with
reason string "Auto-close timeout" (capitalized as in the source, not
"auto-close timeout") — exactly when the gate state is `Open` and
`now - last_open_time >= auto_close_timeout`, regardless of the session
state; in every other case it leaves the state untouched. -/
theorem auto_close_fires_iff (act : Int) (s : CtrlState) (now : Int)
    (b : Bool) :
    ((auto_close_step act s now b).2 = some "Auto-close timeout" ↔
       s.gateState = GateState.isOpen ∧
         ∃ t, s.lastOpenTime = some t ∧ act ≤ now - t)
    ∧ ((auto_close_step act s now b).2 ≠ none →
         (auto_close_step act s now b).1 = close_gate s b)
    ∧ ((auto_close_step act s now b).2 = none →
         (auto_close_step act s now b).1 = s) := by
  rcases s with ⟨g, lo, ss⟩
  cases g <;> cases lo <;>
    simp only [auto_close_step] <;>
    first
      | (refine ⟨by simp, by simp, by simp⟩)
      | (rename_i t
         by_cases hle : act ≤ now - t
         · simp [hle]
         · simp [hle])

/-- C4, counterexample to the claim as stated: with the gate open since time
0 and `auto_close_timeout = 300`, the watchdog at time 300 does fire, but
the reason string it passes is "Auto-close timeout", not the claimed
"auto-close timeout". -/
theorem auto_close_reason_counterexample :
    ((auto_close_step 300 ⟨GateState.isOpen, some 0, none⟩ 300 true).2).isSome
      = true ∧
    (auto_close_step 300 ⟨GateState.isOpen, some 0, none⟩ 300 true).2
      ≠ some "auto-close timeout" := by
  decide

/-- C5: a successful `close` sets the state to `Closed`, clears
`last_open_time` and leaves the session start untouched; consequently an
observation of a still-in-range token within `session_timeout` of the
original session start does not trigger another open call. -/
theorem close_preserves_session (s : CtrlState) (t0 st : Int)
    (tokens : List Token) (uuid : String) (now : Int) (b : Bool)
    (hses : s.sessionStartTime = some t0) (hfresh : now - t0 < st) :
    close_gate s true = ⟨GateState.closed, none, some t0⟩ ∧
    handle_token_detected tokens st (close_gate s true) uuid now b
      = (close_gate s true, false) := by
  have hc : close_gate s true = ⟨GateState.closed, none, some t0⟩ := by
    unfold close_gate
    rw [if_pos rfl, hses]
  refine ⟨hc, ?_⟩
  exact handle_session_fresh tokens st (close_gate s true) uuid now b t0
    (by rw [hc]) hfresh

theorem close_preserves_session_witness :
    close_gate ⟨GateState.isOpen, some 5, some 3⟩ true
      = ⟨GateState.closed, none, some 3⟩ ∧
    handle_token_detected [] 60 (close_gate ⟨GateState.isOpen, some 5, some 3⟩ true)
        "aa" 10 true
      = (close_gate ⟨GateState.isOpen, some 5, some 3⟩ true, false) :=
  close_preserves_session ⟨GateState.isOpen, some 5, some 3⟩ 3 60 [] "aa" 10
    true (by decide) (by decide)

/-- C6: a token registered with `active = false` never opens the gate: an
observation of it returns with the controller state unchanged and no
actuator call, whatever the gate and session state.  (The registry is
assumed duplicate-free up to normalization, which `register` enforces.) -/
theorem disabled_token_never_opens (tokens : List Token) (T : Token)
    (uuid : String) (st : Int) (s : CtrlState) (now : Int) (b : Bool)
    (hp : tokens.Pairwise (fun a b => normalize_uuid a.uuid ≠ normalize_uuid b.uuid))
    (hm : T ∈ tokens) (he : normalize_uuid T.uuid = normalize_uuid uuid)
    (ha : T.active = some false) :
    handle_token_detected tokens st s uuid now b = (s, false) := by
  have hget := get_token_by_uuid_of_mem_unique hp hm he
  unfold handle_token_detected
  rw [hget]
  simp [Token.isActive, ha]

theorem disabled_token_never_opens_witness :
    handle_token_detected [⟨"t1", "A", some false⟩] 60
        ⟨GateState.closed, none, none⟩ "t1" 0 true
      = (⟨GateState.closed, none, none⟩, false) :=
  disabled_token_never_opens [⟨"t1", "A", some false⟩] ⟨"t1", "A", some false⟩
    "t1" 60 ⟨GateState.closed, none, none⟩ 0 true (by decide)
    (by decide) (by decide) (by decide)

/-- C2: once an observation at time `t0` triggers an open attempt — whether
the actuator call succeeds or fails — the session is set to `t0` before the
actuator is invoked, and every further observation of the token arriving
strictly before `t0 + session_timeout` causes no further open call. -/
theorem session_debounce (tokens : List Token) (st : Int) (s : CtrlState)
    (uuid : String) (t0 : Int) (b0 : Bool) (obs : List (Int × Bool))
    (hopen : (handle_token_detected tokens st s uuid t0 b0).2 = true)
    (hobs : ∀ p ∈ obs, p.1 - t0 < st) :
    (handle_token_detected tokens st s uuid t0 b0).1.sessionStartTime
      = some t0 ∧
    (obsFold tokens st (handle_token_detected tokens st s uuid t0 b0).1
        uuid obs).2 = 0 := by
  have hses := handle_opened_session tokens st s uuid t0 b0 hopen
  refine ⟨hses, ?_⟩
  rw [obsFold_no_open tokens st uuid t0 obs _ hses hobs]

theorem session_debounce_witness :
    (handle_token_detected [] 60 initState "aa" 0 false).2 = true ∧
    (handle_token_detected [] 60 initState "aa" 0 false).1.sessionStartTime
      = some 0 ∧
    (obsFold [] 60 (handle_token_detected [] 60 initState "aa" 0 false).1
        "aa" [(5, true), (59, true)]).2 = 0 := by
  have h := session_debounce [] 60 initState "aa" 0 false [(5, true), (59, true)]
    (by decide) (by decide)
  exact ⟨by decide, h.1, h.2⟩

/-! Helper lemmas about the activity log. -/

theorem isDet_mkDetEntry (uuid name : String) (o : Obs) (c : Option Nat) :
    isDet uuid (mkDetEntry uuid name o c) = true := by
  simp [isDet, mkDetEntry, mkDetails]

theorem isDet_type {uuid : String} {e : Entry} (h : isDet uuid e = true) :
    e.type = "token_detected" := by
  simp only [isDet, Bool.and_eq_true, beq_iff_eq] at h
  exact h.1

theorem updateLast_eq_none {entries : List Entry} {uuid : String}
    {now : Int} {msg : String} {d : Details}
    (h : ∀ e ∈ entries, isDet uuid e = false) :
    updateLast entries uuid now msg d = none := by
  induction entries with
  | nil => rfl
  | cons e rest ih =>
    have hrest := ih (fun x hx => h x (List.mem_cons_of_mem e hx))
    have he : isDet uuid e = false := h e (List.mem_cons_self e rest)
    simp [updateLast, hrest, he]

theorem updateLast_append_last {P : List Entry} {E : Entry} {uuid : String}
    {now : Int} {msg : String} {d : Details}
    (hP : ∀ e ∈ P, isDet uuid e = false) (hE : isDet uuid E = true) :
    updateLast (P ++ [E]) uuid now msg d
      = some (P ++ [⟨now, E.type, msg, d, some (E.update_count.getD 0 + 1)⟩]) := by
  induction P with
  | nil =>
    simp [updateLast, hE]
  | cons p P ih =>
    have hrec := ih (fun x hx => hP x (List.mem_cons_of_mem p hx))
    simp [updateLast, hrec]

theorem countDet_eq_zero {entries : List Entry} {uuid : String} :
    countDet entries uuid = 0 ↔ ∀ e ∈ entries, isDet uuid e = false := by
  simp [countDet, List.countP_eq_zero]

theorem log_step_shape {L : ALog} {P : List Entry} {E : Entry}
    {uuid name : String} {r : Option Int} {dst : Option Rat} {t : Int}
    (hs : L.suppressMode = true) (hE : isDet uuid E = true)
    (hent : L.entries = P ++ [E]) (hP : countDet P uuid = 0) :
    log_token_detected L uuid name r dst t
      = ⟨P ++ [mkDetEntry uuid name ⟨t, r, dst⟩
                (some (E.update_count.getD 0 + 1))],
         L.maxEntries, L.suppressMode⟩ := by
  have hupd := @updateLast_append_last P E uuid t (mkMessage name r dst)
    (mkDetails uuid name r dst) (countDet_eq_zero.mp hP) hE
  have htype := isDet_type hE
  simp only [log_token_detected, hs, if_true, hent, hupd, mkDetEntry, htype]

theorem log_first_detection {L : ALog} {uuid name : String} {r : Option Int}
    {dst : Option Rat} {t : Int}
    (hs : L.suppressMode = true) (hmax : 1 ≤ L.maxEntries)
    (h0 : countDet L.entries uuid = 0) :
    ∃ P, log_token_detected L uuid name r dst t
        = ⟨P ++ [mkDetEntry uuid name ⟨t, r, dst⟩ none],
           L.maxEntries, L.suppressMode⟩
      ∧ countDet P uuid = 0 := by
  have hupd : updateLast L.entries uuid t (mkMessage name r dst)
      (mkDetails uuid name r dst) = none :=
    updateLast_eq_none (countDet_eq_zero.mp h0)
  have hfresh : (⟨t, "token_detected", mkMessage name r dst,
      mkDetails uuid name r dst, none⟩ : Entry)
      = mkDetEntry uuid name ⟨t, r, dst⟩ none := rfl
  simp only [log_token_detected, hs, if_true, hupd, add_entry, hfresh]
  by_cases htrim : L.maxEntries < (L.entries ++ [mkDetEntry uuid name ⟨t, r, dst⟩ none]).length
  · rw [if_pos htrim]
    set k := (L.entries ++ [mkDetEntry uuid name ⟨t, r, dst⟩ none]).length
      - L.maxEntries with hk
    have hkle : k ≤ L.entries.length := by
      rw [hk]
      simp only [List.length_append, List.length_cons, List.length_nil]
      omega
    refine ⟨L.entries.drop k, ?_, ?_⟩
    · rw [List.drop_append_of_le_length hkle]
    · have hsub : countDet (L.entries.drop k) uuid ≤ countDet L.entries uuid :=
        List.Sublist.countP_le _ (List.drop_sublist k L.entries)
      omega
  · rw [if_neg htrim]
    exact ⟨L.entries, rfl, h0⟩

theorem fold_shape (uuid name : String) :
    ∀ (obs : List Obs) (L : ALog) (P : List Entry) (E : Entry),
      L.suppressMode = true → isDet uuid E = true →
      L.entries = P ++ [E] → countDet P uuid = 0 → obs ≠ [] →
      ∃ lastO, obs.getLast? = some lastO ∧
        detectFold uuid name L obs
          = ⟨P ++ [mkDetEntry uuid name lastO
                    (some (E.update_count.getD 0 + obs.length))],
             L.maxEntries, L.suppressMode⟩ := by
  intro obs
  induction obs with
  | nil =>
    intro L P E _ _ _ _ hne
    exact absurd rfl hne
  | cons o rest ih =>
    intro L P E hs hE hent hP _
    have hstep : log_token_detected L uuid name o.rssi o.dist o.time
        = ⟨P ++ [mkDetEntry uuid name ⟨o.time, o.rssi, o.dist⟩
                  (some (E.update_count.getD 0 + 1))],
           L.maxEntries, L.suppressMode⟩ :=
      log_step_shape hs hE hent hP
    have hobs : (⟨o.time, o.rssi, o.dist⟩ : Obs) = o := rfl
    rw [hobs] at hstep
    cases rest with
    | nil =>
      refine ⟨o, rfl, ?_⟩
      simp only [detectFold, hstep, List.length_cons, List.length_nil]
    | cons r rs =>
      have hrec := ih (⟨P ++ [mkDetEntry uuid name o
            (some (E.update_count.getD 0 + 1))],
          L.maxEntries, L.suppressMode⟩ : ALog) P
        (mkDetEntry uuid name o (some (E.update_count.getD 0 + 1)))
        hs (isDet_mkDetEntry uuid name o _) rfl hP (by simp)
      rcases hrec with ⟨lastO, hlast, hfold⟩
      refine ⟨lastO, by simpa using hlast, ?_⟩
      have harith : E.update_count.getD 0 + 1 + (r :: rs).length
          = E.update_count.getD 0 + (o :: r :: rs).length := by
        simp only [List.length_cons]
        omega
      calc detectFold uuid name L (o :: r :: rs)
          = detectFold uuid name
              (log_token_detected L uuid name o.rssi o.dist o.time)
              (r :: rs) := rfl
        _ = _ := by
              rw [hstep, hfold]
              simp only [mkDetEntry, Option.getD_some, harith]

/-- C9: in suppress mode, a run of repeated detections of one token starting
from a log with no detection entry for it yields EXACTLY ONE
`token_detected` entry for that token: the final log's last entry carries
the last observation's timestamp, message and details, and an
`update_count` equal to the number of repeats (absent on a single
detection); in extended mode each detection appends a fresh entry (capped
at `max_entries`). -/
theorem suppress_mode_single_entry :
    (∀ (L : ALog) (uuid name : String) (o : Obs) (obs : List Obs),
       L.suppressMode = true → 1 ≤ L.maxEntries →
       countDet L.entries uuid = 0 →
       ∃ lastO, (o :: obs).getLast? = some lastO ∧
         countDet (detectFold uuid name L (o :: obs)).entries uuid = 1 ∧
         (detectFold uuid name L (o :: obs)).entries.getLast?
           = some (mkDetEntry uuid name lastO
               (if obs.isEmpty then none else some obs.length)))
    ∧ (∀ (L : ALog) (uuid name : String) (o : Obs),
       L.suppressMode = false →
       (log_token_detected L uuid name o.rssi o.dist o.time).entries
         = (if L.maxEntries < L.entries.length + 1
            then (L.entries ++ [mkDetEntry uuid name o none]).drop
                   (L.entries.length + 1 - L.maxEntries)
            else L.entries ++ [mkDetEntry uuid name o none])) := by
  constructor
  · intro L uuid name o obs hs hmax h0
    rcases @log_first_detection L uuid name o.rssi o.dist o.time
        hs hmax h0 with ⟨P, hfirst, hP⟩
    have hobs : (⟨o.time, o.rssi, o.dist⟩ : Obs) = o := rfl
    rw [hobs] at hfirst
    cases obs with
    | nil =>
      have hone : detectFold uuid name L [o]
          = ⟨P ++ [mkDetEntry uuid name o none], L.maxEntries, L.suppressMode⟩ := by
        show detectFold uuid name
          (log_token_detected L uuid name o.rssi o.dist o.time) [] = _
        rw [hfirst]
        rfl
      refine ⟨o, rfl, ?_, ?_⟩
      · rw [hone]
        show List.countP (fun e => isDet uuid e)
          (P ++ [mkDetEntry uuid name o none]) = 1
        rw [List.countP_append]
        have h1 : List.countP (fun e => isDet uuid e)
            [mkDetEntry uuid name o none] = 1 := by
          simp [isDet_mkDetEntry uuid name o none]
        have h2 : List.countP (fun e => isDet uuid e) P = 0 := hP
        omega
      · rw [hone]
        exact List.getLast?_concat P
    | cons r rs =>
      have hfold := fold_shape uuid name (r :: rs)
        ⟨P ++ [mkDetEntry uuid name o none], L.maxEntries, L.suppressMode⟩
        P (mkDetEntry uuid name o none) hs (isDet_mkDetEntry uuid name o none)
        rfl hP (by simp)
      rcases hfold with ⟨lastO, hlast, hfold⟩
      have hchain : detectFold uuid name L (o :: r :: rs)
          = ⟨P ++ [mkDetEntry uuid name lastO (some ((r :: rs).length))],
             L.maxEntries, L.suppressMode⟩ := by
        calc detectFold uuid name L (o :: r :: rs)
            = detectFold uuid name
                (log_token_detected L uuid name o.rssi o.dist o.time)
                (r :: rs) := rfl
          _ = _ := by
                rw [hfirst, hfold]
                simp [mkDetEntry]
      refine ⟨lastO, by simpa using hlast, ?_, ?_⟩
      · rw [hchain]
        show List.countP (fun e => isDet uuid e)
          (P ++ [mkDetEntry uuid name lastO (some ((r :: rs).length))]) = 1
        rw [List.countP_append]
        have h1 : List.countP (fun e => isDet uuid e)
            [mkDetEntry uuid name lastO (some ((r :: rs).length))] = 1 := by
          simp [isDet_mkDetEntry]
        have h2 : List.countP (fun e => isDet uuid e) P = 0 := hP
        omega
      · rw [hchain]
        exact List.getLast?_concat P
  · intro L uuid name o hs
    simp only [log_token_detected, hs, Bool.false_eq_true, if_false, add_entry,
      List.length_append, List.length_cons, List.length_nil]
    rfl

theorem suppress_mode_single_entry_witness :
    (∃ lastO, ([⟨0, none, none⟩, ⟨7, some (-50), none⟩] : List Obs).getLast?
        = some lastO ∧
      countDet (detectFold "u" "n" ⟨[], 5, true⟩
          [⟨0, none, none⟩, ⟨7, some (-50), none⟩]).entries "u" = 1 ∧
      (detectFold "u" "n" ⟨[], 5, true⟩
          [⟨0, none, none⟩, ⟨7, some (-50), none⟩]).entries.getLast?
        = some (mkDetEntry "u" "n" lastO
            (if ([⟨7, some (-50), none⟩] : List Obs).isEmpty then none
             else some 1)))
    ∧ (log_token_detected ⟨[], 5, false⟩ "u" "n" none none 3).entries
        = (if (5:Nat) < 0 + 1
           then (([] : List Entry) ++ [mkDetEntry "u" "n" ⟨3, none, none⟩ none]).drop (0 + 1 - 5)
           else ([] : List Entry) ++ [mkDetEntry "u" "n" ⟨3, none, none⟩ none]) :=
  ⟨suppress_mode_single_entry.1 ⟨[], 5, true⟩ "u" "n" ⟨0, none, none⟩
      [⟨7, some (-50), none⟩] rfl (by decide) (by decide),
   suppress_mode_single_entry.2 ⟨[], 5, false⟩ "u" "n" ⟨3, none, none⟩ rfl⟩

end GateCtl
